import Mathlib

/-!
Shallow embedding of `src/seance-1/index.js`, an instructional script that
fetches a JSON collection of presidential-endorsement records, computes simple
aggregate statistics over it, demonstrates concurrent versus sequential batch
retrieval of web pages, and joins the current-year records against a prior-year
collection into a tally object.

Arrays become `List`, JS objects used as dictionaries become association lists
`List (String × Nat)` with insertion-order semantics, JS numbers become `ℚ`
(with an `Option ℚ` variant where the non-finite outcomes of floating-point
division matter), and the fallible I/O steps of the script become an `Except`
error monad over an environment of oracles.
-/

/-- An endorsement record as deserialized from the JSON data files; the five
string fields are exactly those the script accesses (`name`, `civility`,
`mandate`, `constituency`, `candidate`). -/
structure EndorsementRecord where
  name : String
  civility : String
  mandate : String
  constituency : String
  candidate : String
deriving DecidableEq

/-- Whether the pattern (first argument) occurs at the head of the text
(second argument), character by character. -/
def leadMatch : List Char → List Char → Bool
  | [], _ => true
  | _ :: _, [] => false
  | p :: ps, h :: hs => p == h && leadMatch ps hs

/-- Whether the pattern (second argument) occurs contiguously anywhere in the
text (first argument). -/
def hasSub : List Char → List Char → Bool
  | [], pat => leadMatch pat []
  | h :: t, pat => leadMatch pat (h :: t) || hasSub t pat

/-- Embeds JS `String.prototype.includes` as used on line 77 and line 82 of
`index.js`: a case-sensitive contiguous-substring test with no normalization. -/
def strIncludes (s pat : String) : Bool :=
  hasSub s.data pat.data

/-- Embeds line 71 of `index.js`,
`data2022.filter((d) => d.civility === 'M.').length / data2022.length * 100`,
generalised over the civility value per the spec's interface, with exact
rational arithmetic in place of JS floating point. -/
def percentageWithCivility (records : List EndorsementRecord) (v : String) : ℚ :=
  ((records.filter (fun d => d.civility == v)).length : ℚ) / (records.length : ℚ) * 100

/-- JS `Number` division restricted to the quotients this script can produce:
`none` models a non-finite result (`NaN` from `0/0`, infinite otherwise when
the divisor is zero); all other quotients of naturals are exact rationals. -/
def jsDiv (a b : ℚ) : Option ℚ :=
  if b = 0 then none else some (a / b)

/-- JS multiplication of a possibly non-finite number by a finite constant;
a non-finite operand propagates (`NaN * 100` is `NaN`). -/
def jsMul (x : Option ℚ) (c : ℚ) : Option ℚ :=
  x.map (fun q => q * c)

/-- Embeds line 71 of `index.js` again, keeping the floating-point status of
the division explicit: an empty collection makes the division `0/0`. -/
def percentageWithCivilityJS (records : List EndorsementRecord) (v : String) : Option ℚ :=
  jsMul (jsDiv ((records.filter (fun d => d.civility == v)).length : ℚ)
    ((records.length : ℚ))) 100

/-- Embeds line 82 of `index.js`,
`data2022.filter((d) => d.candidate === 'zemmour' && d.mandate.includes('Maire') && d.civility === 'Mme').length`,
generalised over the three arguments per the spec's interface. -/
def countByCandidateAndCivilityAndMandate (records : List EndorsementRecord)
    (candidate civility substring : String) : Nat :=
  (records.filter (fun d =>
    d.candidate == candidate && strIncludes d.mandate substring && d.civility == civility)).length

/-- Embeds the JS `Set`-spread idiom `[...new Set(l)]`: a JS `Set` keeps
first-occurrence insertion order, modelled by this fold. -/
def setSpread (l : List String) : List String :=
  l.foldl (fun acc x => if x ∈ acc then acc else acc ++ [x]) []

/-- Embeds line 86 of `index.js`, `[...new Set(data2022.map((d) => d.candidate))]`. -/
def distinctCandidates (records : List EndorsementRecord) : List String :=
  setSpread (records.map (fun d => d.candidate))

/-- Embeds line 104 of `index.js`, `array.reduce((acc, d) => [...acc, d * 2], [])`. -/
def reduceTimesTwo (xs : List Int) : List Int :=
  xs.foldl (fun acc d => acc ++ [d * 2]) []

/-- Embeds lines 109–114 of `index.js`: the reduce that appends `d` to the
accumulator only when `d >= 4`. -/
def reduceAtLeastFour (xs : List Int) : List Int :=
  xs.foldl (fun acc d => if d ≥ 4 then acc ++ [d] else acc) []

/-- The fixed URL list of lines 120–124 of `index.js`. -/
def URLS : List String :=
  ["https://example.com", "https://tomfevrier.io", "https://lesechos.fr"]

/-- Embeds lines 129–134 of `index.js`,
`await Promise.all(URLS.map(async (url) => ...))`: `Promise.all` collects
results positionally, so with the per-URL retrieval modelled as a deterministic
function the batch is that function mapped over the input order. -/
def webpagesSimultaneous (fetchBody : String → String) (urls : List String) : List String :=
  urls.map fetchBody

/-- Embeds lines 139–145 of `index.js`: the reduce that chains one retrieval
after the other, appending each body to the accumulated array. -/
def webpagesSequential (fetchBody : String → String) (urls : List String) : List String :=
  urls.foldl (fun pages url => pages ++ [fetchBody url]) []

/-- Value at key `k` of the JS-object tally, with the `acc[k] || 0`
defaulting of line 171 of `index.js`. -/
def lookupTally (acc : List (String × Nat)) (k : String) : Nat :=
  (acc.lookup k).getD 0

/-- Embeds the assignment `acc[candidate2017] = (acc[candidate2017] || 0) + 1`
of line 171: a JS property write updates an existing key in place (keeping its
position) or appends a fresh key in insertion order. -/
def bumpTally (acc : List (String × Nat)) (k : String) : List (String × Nat) :=
  if (acc.lookup k).isSome then
    acc.map (fun p => if p.1 == k then (p.1, p.2 + 1) else p)
  else
    acc ++ [(k, 1)]

/-- Embeds line 168 of `index.js`,
`data2017.find((e) => e.name === d.name && e.constituency === d.constituency)`:
the first prior-year record matching on both fields, if any. -/
def findSponsor2017 (data2017 : List EndorsementRecord) (d : EndorsementRecord) :
    Option EndorsementRecord :=
  data2017.find? (fun e => e.name == d.name && e.constituency == d.constituency)

/-- Embeds the body of the reduce of lines 167–174 of `index.js` for one
current-year record: bump the matching prior-year candidate's entry, or leave
the accumulator unchanged when there is no match. -/
def joinStep (data2017 : List EndorsementRecord) (acc : List (String × Nat))
    (d : EndorsementRecord) : List (String × Nat) :=
  match findSponsor2017 data2017 d with
  | some sponsor2017 => bumpTally acc sponsor2017.candidate
  | none => acc

/-- Embeds lines 166–175 of `index.js`: filter the current-year records to one
candidate and reduce them, in order, into the tally object. -/
def tallyPriorCandidates (data2022 data2017 : List EndorsementRecord) (c : String) :
    List (String × Nat) :=
  (data2022.filter (fun d => d.candidate == c)).foldl (joinStep data2017) []

/-- Sum of the counts stored in a tally object. -/
def sumTally (acc : List (String × Nat)) : Nat :=
  (acc.map Prod.snd).sum

/-- The one-record current-year collection of the spec's end-to-end scenario. -/
def exData2022 : List EndorsementRecord :=
  [⟨"A", "Mme", "Maire de Paris", "X1", "zemmour"⟩]

/-- The one-record prior-year collection of the spec's end-to-end scenario;
the fields the scenario leaves unspecified are empty strings. -/
def exData2017 : List EndorsementRecord :=
  [⟨"A", "", "", "X1", "fillon"⟩]

/- Helper lemmas about the fold-append idiom shared by the reduce examples
and the sequential batch retrieval. -/

theorem foldl_append_map {α β : Type} (f : α → β) :
    ∀ (l : List α) (acc : List β),
      l.foldl (fun acc d => acc ++ [f d]) acc = acc ++ l.map f := by
  intro l
  induction l with
  | nil => intro acc; simp
  | cons a t ih => intro acc; simp [List.foldl_cons, ih]

theorem foldl_append_filter (p : Int → Prop) [DecidablePred p] :
    ∀ (l : List Int) (acc : List Int),
      l.foldl (fun acc d => if p d then acc ++ [d] else acc) acc
        = acc ++ l.filter (fun d => p d) := by
  intro l
  induction l with
  | nil => intro acc; simp
  | cons a t ih =>
    intro acc
    by_cases h : p a
    · simp [List.foldl_cons, h, ih]
    · simp [List.foldl_cons, h, ih]

/-- C2: for every deterministic per-URL retrieval and every list of URLs, the
sequential batch (reduce over an accumulated chain) returns the same sequence
of page bodies, in input order, as the concurrent batch (positional collection
over a map). -/
theorem c2_sequential_eq_simultaneous (fetchBody : String → String) (urls : List String) :
    webpagesSequential fetchBody urls = webpagesSimultaneous fetchBody urls := by
  unfold webpagesSequential webpagesSimultaneous
  simpa using foldl_append_map fetchBody urls []

/-- C3: for every record collection and civility value, the percentage equals
the count of records whose civility is exactly that value, divided by the
total record count, times 100. -/
theorem c3_percentage_formula (records : List EndorsementRecord) (v : String) :
    percentageWithCivility records v
      = ((records.countP (fun d => d.civility == v) : ℚ) / (records.length : ℚ)) * 100 := by
  unfold percentageWithCivility
  rw [List.countP_eq_length_filter]

/-- C5: on the empty collection the percentage is the unguarded `0/0` division,
whose non-finite (`NaN`-equivalent) outcome is surfaced as `none`; in
particular it is not the number 0. -/
theorem c5_empty_is_nan (v : String) :
    percentageWithCivilityJS [] v = none ∧ percentageWithCivilityJS [] v ≠ some 0 := by
  constructor
  · rfl
  · intro h
    simp [percentageWithCivilityJS, jsDiv, jsMul] at h

/-- C6: the triple-predicate count equals the number of records satisfying all
three predicates conjunctively (candidate equal, civility equal, mandate
containing the substring case-sensitively), and on the end-to-end example it
equals 1 for arguments zemmour, Mme, Maire. -/
theorem c6_triple_predicate_count :
    (∀ (records : List EndorsementRecord) (c v s : String),
      countByCandidateAndCivilityAndMandate records c v s
        = records.countP (fun d => d.candidate == c && strIncludes d.mandate s && d.civility == v))
    ∧ countByCandidateAndCivilityAndMandate exData2022 "zemmour" "Mme" "Maire" = 1 := by
  constructor
  · intro records c v s
    unfold countByCandidateAndCivilityAndMandate
    rw [List.countP_eq_length_filter]
  · decide

/-- C9: the reduce that appends `d * 2` is extensionally the map doubling each
element, and the reduce that appends `d` only when `d >= 4` is extensionally
the filter keeping the elements that are at least 4. -/
theorem c9_reduce_as_map_and_filter :
    (∀ xs : List Int, reduceTimesTwo xs = xs.map (fun d => d * 2))
    ∧ (∀ xs : List Int, reduceAtLeastFour xs = xs.filter (fun d => d ≥ 4)) := by
  constructor
  · intro xs
    unfold reduceTimesTwo
    simpa using foldl_append_map (fun d : Int => d * 2) xs []
  · intro xs
    unfold reduceAtLeastFour
    simpa using foldl_append_filter (fun d : Int => d ≥ 4) xs []

/- Helper lemmas about `List.lookup` and the JS-object update `bumpTally`. -/

theorem lookup_cons_pair (a : String × Nat) (t : List (String × Nat)) (k : String) :
    (a :: t).lookup k = if k == a.1 then some a.2 else t.lookup k := by
  obtain ⟨ka, va⟩ := a
  rw [List.lookup_cons]
  cases hb : (k == ka) <;> simp [hb]

theorem lookup_append_left_none (k : String) :
    ∀ (acc l : List (String × Nat)), acc.lookup k = none → (acc ++ l).lookup k = l.lookup k := by
  intro acc
  induction acc with
  | nil => intro l _; simp
  | cons a t ih =>
    intro l h
    rw [lookup_cons_pair] at h
    rw [List.cons_append, lookup_cons_pair]
    by_cases hk : k = a.1
    · simp [hk] at h
    · simp only [hk, beq_iff_eq, if_false] at h ⊢
      exact ih l h

theorem lookup_map_bump (k : String) :
    ∀ acc : List (String × Nat),
      (acc.map (fun p => if p.1 == k then (p.1, p.2 + 1) else p)).lookup k
        = (acc.lookup k).map (fun v => v + 1) := by
  intro acc
  induction acc with
  | nil => simp
  | cons a t ih =>
    by_cases hk : a.1 = k
    · simp [List.map_cons, lookup_cons_pair, hk, ih]
    · simpa [List.map_cons, lookup_cons_pair, hk, Ne.symm hk] using ih

theorem lookupTally_bumpTally_self (acc : List (String × Nat)) (k : String) :
    lookupTally (bumpTally acc k) k = lookupTally acc k + 1 := by
  unfold bumpTally lookupTally
  by_cases h : (acc.lookup k).isSome
  · rw [if_pos h, lookup_map_bump]
    cases hv : acc.lookup k with
    | none => rw [hv] at h; simp at h
    | some v => simp
  · rw [if_neg h]
    have hnone : acc.lookup k = none := Option.not_isSome_iff_eq_none.mp h
    rw [lookup_append_left_none k acc [(k, 1)] hnone, hnone, lookup_cons_pair]
    simp

/-- C1: the cross-year join scans the filtered current-year records in order;
a record with no prior-year match on (name, constituency) leaves the tally
unchanged, a record with a match increments the entry keyed by the matched
prior-year record's candidate (creating it at 1, since an absent key reads
as 0); the filtered-empty case gives an empty tally, and the one-record
end-to-end example gives the tally mapping fillon to 1. -/
theorem c1_cross_year_join :
    (∀ (data2017 : List EndorsementRecord) (acc : List (String × Nat)) (d : EndorsementRecord),
      findSponsor2017 data2017 d = none → joinStep data2017 acc d = acc)
    ∧ (∀ (data2017 : List EndorsementRecord) (acc : List (String × Nat))
        (d s : EndorsementRecord), findSponsor2017 data2017 d = some s →
          lookupTally (joinStep data2017 acc d) s.candidate
            = lookupTally acc s.candidate + 1)
    ∧ (∀ (data2022 data2017 : List EndorsementRecord) (c : String),
        data2022.filter (fun d => d.candidate == c) = [] →
          tallyPriorCandidates data2022 data2017 c = [])
    ∧ tallyPriorCandidates exData2022 exData2017 "zemmour" = [("fillon", 1)] := by
  refine ⟨?_, ?_, ?_, ?_⟩
  · intro d17 acc d h
    simp [joinStep, h]
  · intro d17 acc d s h
    simp only [joinStep, h]
    exact lookupTally_bumpTally_self acc s.candidate
  · intro d22 d17 c h
    unfold tallyPriorCandidates
    rw [h]
    rfl
  · decide

/-- Witness for C1 at concrete inputs: an unmatched record leaves the tally
unchanged, the end-to-end record bumps the fillon entry from 0 to 1, a
collection with no zemmour record yields an empty tally, and the end-to-end
tally is exactly fillon ↦ 1. -/
theorem c1_cross_year_join_witness :
    joinStep exData2017 [] ⟨"B", "M.", "", "X2", "zemmour"⟩ = []
    ∧ lookupTally (joinStep exData2017 [] ⟨"A", "Mme", "Maire de Paris", "X1", "zemmour"⟩)
        (⟨"A", "", "", "X1", "fillon"⟩ : EndorsementRecord).candidate
      = lookupTally [] (⟨"A", "", "", "X1", "fillon"⟩ : EndorsementRecord).candidate + 1
    ∧ tallyPriorCandidates [⟨"B", "M.", "", "X2", "lepen"⟩] exData2017 "zemmour" = []
    ∧ tallyPriorCandidates exData2022 exData2017 "zemmour" = [("fillon", 1)] :=
  ⟨c1_cross_year_join.1 exData2017 [] ⟨"B", "M.", "", "X2", "zemmour"⟩ (by decide),
   c1_cross_year_join.2.1 exData2017 [] ⟨"A", "Mme", "Maire de Paris", "X1", "zemmour"⟩
     ⟨"A", "", "", "X1", "fillon"⟩ (by decide),
   c1_cross_year_join.2.2.1 [⟨"B", "M.", "", "X2", "lepen"⟩] exData2017 "zemmour" (by decide),
   c1_cross_year_join.2.2.2⟩

/- Helper lemma for the Set-spread fold: starting from a duplicate-free
accumulator, the fold stays duplicate-free and only ever holds elements of the
accumulator or of the input list. -/

theorem setSpread_fold_invariant :
    ∀ (l acc : List String), acc.Nodup →
      (l.foldl (fun acc x => if x ∈ acc then acc else acc ++ [x]) acc).Nodup
      ∧ ∀ x ∈ l.foldl (fun acc x => if x ∈ acc then acc else acc ++ [x]) acc,
          x ∈ acc ∨ x ∈ l := by
  intro l
  induction l with
  | nil =>
    intro acc h
    exact ⟨h, fun x hx => Or.inl hx⟩
  | cons a t ih =>
    intro acc h
    rw [List.foldl_cons]
    by_cases ha : a ∈ acc
    · rw [if_pos ha]
      obtain ⟨h1, h2⟩ := ih acc h
      refine ⟨h1, fun x hx => ?_⟩
      rcases h2 x hx with h' | h'
      · exact Or.inl h'
      · exact Or.inr (List.mem_cons_of_mem a h')
    · rw [if_neg ha]
      have hacc : (acc ++ [a]).Nodup := by
        refine List.Nodup.append h (List.nodup_singleton a) ?_
        intro x hx hxa
        rw [List.mem_singleton] at hxa
        exact ha (hxa ▸ hx)
      obtain ⟨h1, h2⟩ := ih (acc ++ [a]) hacc
      refine ⟨h1, fun x hx => ?_⟩
      rcases h2 x hx with h' | h'
      · rcases List.mem_append.mp h' with h'' | h''
        · exact Or.inl h''
        · rw [List.mem_singleton] at h''
          exact Or.inr (h'' ▸ List.mem_cons_self a t)
      · exact Or.inr (List.mem_cons_of_mem a h')

/-- C7: the distinct-candidates list has no duplicate entries, and each of its
elements is the candidate field of at least one record of the collection. -/
theorem c7_distinct_candidates (R : List EndorsementRecord) :
    (distinctCandidates R).Nodup
    ∧ ∀ x ∈ distinctCandidates R, ∃ r ∈ R, r.candidate = x := by
  unfold distinctCandidates setSpread
  obtain ⟨h1, h2⟩ :=
    setSpread_fold_invariant (R.map (fun d => d.candidate)) [] List.nodup_nil
  refine ⟨h1, fun x hx => ?_⟩
  rcases h2 x hx with h' | h'
  · cases h'
  · rcases List.mem_map.mp h' with ⟨r, hr, he⟩
    exact ⟨r, hr, he⟩

/-- Witness for C7 on the end-to-end collection: the distinct-candidates list
is duplicate-free and its element zemmour comes from a record. -/
theorem c7_distinct_candidates_witness :
    (distinctCandidates exData2022).Nodup
    ∧ ∃ r ∈ exData2022, r.candidate = "zemmour" :=
  ⟨(c7_distinct_candidates exData2022).1,
   (c7_distinct_candidates exData2022).2 "zemmour" (by decide)⟩

/- Helper lemmas for the tally invariants: keys stay duplicate-free, values
stay at least 1, and each bump adds exactly 1 to the total. -/

theorem map_bump_keys (k : String) (acc : List (String × Nat)) :
    (acc.map (fun p => if p.1 == k then (p.1, p.2 + 1) else p)).map Prod.fst
      = acc.map Prod.fst := by
  rw [List.map_map]
  have hf : (Prod.fst ∘ fun p : String × Nat => if p.1 == k then (p.1, p.2 + 1) else p)
      = Prod.fst := by
    funext p
    by_cases h : p.1 = k <;> simp [h]
  rw [hf]

theorem map_bump_of_absent (k : String) :
    ∀ t : List (String × Nat), (∀ p ∈ t, p.1 ≠ k) →
      t.map (fun p => if p.1 == k then (p.1, p.2 + 1) else p) = t := by
  intro t
  induction t with
  | nil => intro _; simp
  | cons a s ih =>
    intro h
    have ha := h a (List.mem_cons_self a s)
    have h1 : (if a.1 == k then (a.1, a.2 + 1) else a) = a := by simp [ha]
    rw [List.map_cons, h1, ih (fun p hp => h p (List.mem_cons_of_mem a hp))]

theorem lookup_none_forall (k : String) :
    ∀ acc : List (String × Nat), acc.lookup k = none → ∀ p ∈ acc, p.1 ≠ k := by
  intro acc
  induction acc with
  | nil => intro _ p hp; cases hp
  | cons a t ih =>
    intro h p hp
    rw [lookup_cons_pair] at h
    by_cases hk : k = a.1
    · simp [hk] at h
    · rcases List.mem_cons.mp hp with rfl | hp'
      · exact fun he => hk he.symm
      · exact ih (by simpa [hk] using h) p hp'

theorem sum_map_bump (k : String) :
    ∀ acc : List (String × Nat), (acc.map Prod.fst).Nodup →
      (acc.lookup k).isSome →
      sumTally (acc.map (fun p => if p.1 == k then (p.1, p.2 + 1) else p))
        = sumTally acc + 1 := by
  intro acc
  induction acc with
  | nil => intro _ h; simp at h
  | cons a t ih =>
    intro hnd hs
    rw [List.map_cons] at hnd
    obtain ⟨hka, hndt⟩ := List.nodup_cons.mp hnd
    by_cases hk : a.1 = k
    · have hkeys : ∀ p ∈ t, p.1 ≠ k := by
        intro p hp he
        exact hka (by rw [hk, ← he]; exact List.mem_map_of_mem Prod.fst hp)
      have h1 : (if a.1 == k then (a.1, a.2 + 1) else a) = (a.1, a.2 + 1) := by simp [hk]
      rw [List.map_cons, map_bump_of_absent k t hkeys, h1]
      simp only [sumTally, List.map_cons, List.sum_cons]
      omega
    · rw [lookup_cons_pair] at hs
      have hs' : (t.lookup k).isSome := by simpa [Ne.symm hk] using hs
      have h1 : (if a.1 == k then (a.1, a.2 + 1) else a) = a := by simp [hk]
      rw [List.map_cons, h1]
      simp only [sumTally, List.map_cons, List.sum_cons] at ih ⊢
      rw [ih hndt hs']
      omega

theorem keys_bumpTally (acc : List (String × Nat)) (k : String)
    (h : (acc.map Prod.fst).Nodup) : ((bumpTally acc k).map Prod.fst).Nodup := by
  unfold bumpTally
  by_cases hs : (acc.lookup k).isSome
  · rw [if_pos hs, map_bump_keys]
    exact h
  · rw [if_neg hs, List.map_append]
    have hk := lookup_none_forall k acc (Option.not_isSome_iff_eq_none.mp hs)
    refine List.Nodup.append h (List.nodup_singleton k) ?_
    intro x hx hxk
    have hxk' : x = k := by simpa using hxk
    rcases List.mem_map.mp hx with ⟨p, hp, he⟩
    exact hk p hp (he.trans hxk')

theorem vals_bumpTally (acc : List (String × Nat)) (k : String)
    (h : ∀ p ∈ acc, 1 ≤ p.2) : ∀ p ∈ bumpTally acc k, 1 ≤ p.2 := by
  unfold bumpTally
  by_cases hs : (acc.lookup k).isSome
  · rw [if_pos hs]
    intro p hp
    rcases List.mem_map.mp hp with ⟨q, hq, rfl⟩
    by_cases hqk : q.1 = k
    · have h1 : (if q.1 == k then (q.1, q.2 + 1) else q) = (q.1, q.2 + 1) := by simp [hqk]
      rw [h1]
      exact Nat.succ_le_succ (Nat.zero_le q.2)
    · have h1 : (if q.1 == k then (q.1, q.2 + 1) else q) = q := by simp [hqk]
      rw [h1]
      exact h q hq
  · rw [if_neg hs]
    intro p hp
    rcases List.mem_append.mp hp with h' | h'
    · exact h p h'
    · rw [List.mem_singleton] at h'
      simp [h']

theorem sum_bumpTally (acc : List (String × Nat)) (k : String)
    (h : (acc.map Prod.fst).Nodup) : sumTally (bumpTally acc k) = sumTally acc + 1 := by
  unfold bumpTally
  by_cases hs : (acc.lookup k).isSome
  · rw [if_pos hs]
    exact sum_map_bump k acc h hs
  · rw [if_neg hs]
    simp [sumTally]

theorem join_fold_invariant (data2017 : List EndorsementRecord) :
    ∀ (l : List EndorsementRecord) (acc : List (String × Nat)),
      (acc.map Prod.fst).Nodup →
      ((l.foldl (joinStep data2017) acc).map Prod.fst).Nodup
      ∧ ((∀ p ∈ acc, 1 ≤ p.2) → ∀ p ∈ l.foldl (joinStep data2017) acc, 1 ≤ p.2)
      ∧ sumTally (l.foldl (joinStep data2017) acc)
          = sumTally acc + l.countP (fun d => (findSponsor2017 data2017 d).isSome) := by
  intro l
  induction l with
  | nil =>
    intro acc h
    exact ⟨h, fun hv p hp => hv p hp, by simp⟩
  | cons d t ih =>
    intro acc h
    rw [List.foldl_cons]
    cases hf : findSponsor2017 data2017 d with
    | none =>
      have hstep : joinStep data2017 acc d = acc := by simp [joinStep, hf]
      rw [hstep]
      obtain ⟨h1, h2, h3⟩ := ih acc h
      refine ⟨h1, h2, ?_⟩
      rw [h3, List.countP_cons]
      simp [hf]
    | some s =>
      have hstep : joinStep data2017 acc d = bumpTally acc s.candidate := by
        simp [joinStep, hf]
      rw [hstep]
      obtain ⟨h1, h2, h3⟩ := ih (bumpTally acc s.candidate) (keys_bumpTally acc s.candidate h)
      refine ⟨h1, fun hv => h2 (vals_bumpTally acc s.candidate hv), ?_⟩
      rw [h3, sum_bumpTally acc s.candidate h, List.countP_cons]
      simp [hf]
      omega

/-- C10: every count stored in the cross-year tally is at least 1, and the
counts sum to the number of filtered current-year records that have a
prior-year match on (name, constituency). -/
theorem c10_tally_invariant (data2022 data2017 : List EndorsementRecord) (c : String) :
    (∀ p ∈ tallyPriorCandidates data2022 data2017 c, 1 ≤ p.2)
    ∧ sumTally (tallyPriorCandidates data2022 data2017 c)
        = (data2022.filter (fun d => d.candidate == c)).countP
            (fun d => (findSponsor2017 data2017 d).isSome) := by
  unfold tallyPriorCandidates
  obtain ⟨_, h2, h3⟩ :=
    join_fold_invariant data2017 (data2022.filter (fun d => d.candidate == c)) [] (by simp)
  refine ⟨h2 (fun p hp => absurd hp (List.not_mem_nil p)), ?_⟩
  simpa [sumTally] using h3

/-- Witness for C10 on the end-to-end scenario: the fillon entry is at least 1
and the tally total equals the matched-record count. -/
theorem c10_tally_invariant_witness :
    1 ≤ (("fillon", 1) : String × Nat).2
    ∧ sumTally (tallyPriorCandidates exData2022 exData2017 "zemmour")
        = (exData2022.filter (fun d => d.candidate == "zemmour")).countP
            (fun d => (findSponsor2017 exData2017 d).isSome) :=
  ⟨(c10_tally_invariant exData2022 exData2017 "zemmour").1 ("fillon", 1) (by decide),
   (c10_tally_invariant exData2022 exData2017 "zemmour").2⟩

/- Helper lemma pulling a common divisor and factor out of a sum of rationals. -/

theorem sum_map_div_mul (T : ℚ) (g : String → ℕ) :
    ∀ vs : List String,
      (vs.map (fun v => ((g v : ℕ) : ℚ) / T * 100)).sum
        = (((vs.map g).sum : ℕ) : ℚ) / T * 100 := by
  intro vs
  induction vs with
  | nil => simp
  | cons a t ih =>
    simp only [List.map_cons, List.sum_cons, ih]
    push_cast
    ring

/-- C4: on a non-empty collection every percentage lies in [0, 100], and the
percentages of the distinct civility values occurring in the collection sum
to exactly 100 in exact rational arithmetic. -/
theorem c4_percentage_bounds_and_total (R : List EndorsementRecord) (hR : R ≠ []) :
    (∀ v : String, 0 ≤ percentageWithCivility R v ∧ percentageWithCivility R v ≤ 100)
    ∧ ((R.map (fun d => d.civility)).dedup.map (fun v => percentageWithCivility R v)).sum
        = 100 := by
  have hlen : 0 < R.length := List.length_pos.mpr hR
  have hT : (0 : ℚ) < (R.length : ℚ) := by exact_mod_cast hlen
  have hcnt : ∀ v : String,
      (R.map (fun d => d.civility)).count v
        = (R.filter (fun d => d.civility == v)).length := by
    intro v
    rw [List.count_eq_countP, List.countP_map]
    show R.countP (fun d => d.civility == v) = (R.filter (fun d => d.civility == v)).length
    rw [List.countP_eq_length_filter]
  constructor
  · intro v
    unfold percentageWithCivility
    constructor
    · apply mul_nonneg _ (by norm_num)
      exact div_nonneg (Nat.cast_nonneg _) (le_of_lt hT)
    · have hle : ((R.filter (fun d => d.civility == v)).length : ℚ) ≤ (R.length : ℚ) := by
        exact_mod_cast List.length_filter_le _ _
      calc ((R.filter (fun d => d.civility == v)).length : ℚ) / (R.length : ℚ) * 100
          ≤ 1 * 100 := by
            apply mul_le_mul_of_nonneg_right _ (by norm_num)
            exact (div_le_one hT).mpr hle
        _ = 100 := by norm_num
  · have hmap :
        (R.map (fun d => d.civility)).dedup.map (fun v => percentageWithCivility R v)
          = (R.map (fun d => d.civility)).dedup.map
              (fun v => (((R.map (fun d => d.civility)).count v : ℕ) : ℚ)
                / (R.length : ℚ) * 100) := by
      apply List.map_congr_left
      intro v _
      unfold percentageWithCivility
      rw [hcnt v]
    rw [hmap,
      sum_map_div_mul (R.length : ℚ) (fun v => (R.map (fun d => d.civility)).count v),
      List.sum_map_count_dedup_eq_length, List.length_map, div_self hT.ne', one_mul]

/-- Witness for C4 on the non-empty end-to-end collection: the Mme percentage
is within bounds and the distinct-civility percentages sum to 100. -/
theorem c4_percentage_bounds_and_total_witness :
    (0 ≤ percentageWithCivility exData2022 "Mme" ∧ percentageWithCivility exData2022 "Mme" ≤ 100)
    ∧ ((exData2022.map (fun d => d.civility)).dedup.map
        (fun v => percentageWithCivility exData2022 v)).sum = 100 :=
  ⟨(c4_percentage_bounds_and_total exData2022 (by decide)).1 "Mme",
   (c4_percentage_bounds_and_total exData2022 (by decide)).2⟩

/- Error-monad model of the whole script (the async IIFE of lines 64–198):
the three error kinds of the spec, an environment of fallible oracles for the
remote fetch, the per-URL page retrievals and the local file read, and the
script as a sequence of binds in `Except`, so a rejected step short-circuits
exactly like an un-caught awaited rejection. -/

/-- The spec's three error kinds, each carrying its source (URL or path). -/
inductive ScriptError where
  | retrieval : String → ScriptError
  | fileAccess : String → ScriptError
  | decode : String → ScriptError
deriving DecidableEq

/-- The fallible external world of the script: the remote current-year
dataset (fetch + JSON decode), the per-URL page body retrieval, and the local
prior-year file (synchronous read + JSON parse). -/
structure ScriptEnv where
  fetchData2022 : Except ScriptError (List EndorsementRecord)
  fetchPage : String → Except ScriptError String
  readData2017 : Except ScriptError (List EndorsementRecord)

/-- The demonstration array of line 97 of `index.js`. -/
def demoArray : List Int :=
  [2, 3, 8, 6, 1, 7, 4, 5]

/-- Everything the script writes to standard output, gathered in one record. -/
structure ScriptOutput where
  total : Nat
  pctMen : ℚ
  maires : Nat
  zemmourFemaleMayors : Nat
  candidates : List String
  demoSum : Int
  demoDoubled : List Int
  demoAtLeastFour : List Int
  pagesSimultaneous : List String
  pagesSequential : List String
  tally : List (String × Nat)

/-- Embeds the concurrent batch of lines 129–134 with its failure behavior:
`Promise.all` rejects with the first rejection, so each retrieval is bound in
input order and the first error short-circuits. -/
def fetchAll (fetchPage : String → Except ScriptError String) :
    List String → Except ScriptError (List String)
  | [] => .ok []
  | u :: t =>
    match fetchPage u with
    | .error e => .error e
    | .ok html =>
      match fetchAll fetchPage t with
      | .error e => .error e
      | .ok rest => .ok (html :: rest)

/-- Embeds the sequential batch of lines 139–145 with its failure behavior:
each retrieval is awaited after the previous one, appending to the
accumulated array, and the first rejection short-circuits. -/
def fetchSeq (fetchPage : String → Except ScriptError String) :
    List String → List String → Except ScriptError (List String)
  | acc, [] => .ok acc
  | acc, u :: t =>
    match fetchPage u with
    | .error e => .error e
    | .ok html => fetchSeq fetchPage (acc ++ [html]) t

/-- The first error among the per-URL retrievals, in input order. -/
def firstFetchFailure (fetchPage : String → Except ScriptError String) :
    List String → Option ScriptError
  | [] => none
  | u :: t =>
    match fetchPage u with
    | .error e => some e
    | .ok _ => firstFetchFailure fetchPage t

/-- Embeds the async IIFE of lines 64–198 of `index.js` in the `Except` error
monad: the current-year fetch, the two retrieval batches over `URLS`, the
local prior-year read, then the pure aggregate queries; no step catches or
recovers an error, so each failing await propagates to the top. -/
def runScript (env : ScriptEnv) : Except ScriptError ScriptOutput :=
  match env.fetchData2022 with
  | .error e => .error e
  | .ok data2022 =>
    match fetchAll env.fetchPage URLS with
    | .error e => .error e
    | .ok pagesSim =>
      match fetchSeq env.fetchPage [] URLS with
      | .error e => .error e
      | .ok pagesSeq =>
        match env.readData2017 with
        | .error e => .error e
        | .ok data2017 =>
          .ok
            { total := data2022.length
              pctMen := percentageWithCivility data2022 "M."
              maires := (data2022.filter (fun d => strIncludes d.mandate "Maire")).length
              zemmourFemaleMayors :=
                countByCandidateAndCivilityAndMandate data2022 "zemmour" "Mme" "Maire"
              candidates := distinctCandidates data2022
              demoSum := demoArray.foldl (fun acc d => acc + d) 0
              demoDoubled := reduceTimesTwo demoArray
              demoAtLeastFour := reduceAtLeastFour demoArray
              pagesSimultaneous := pagesSim
              pagesSequential := pagesSeq
              tally := tallyPriorCandidates data2022 data2017 "zemmour" }

/-- The first error the script's fallible operations hit, in program order:
the current-year fetch, then the page retrievals in URL order, then the
prior-year file read. -/
def firstFailure (env : ScriptEnv) : Option ScriptError :=
  match env.fetchData2022 with
  | .error e => some e
  | .ok _ =>
    match firstFetchFailure env.fetchPage URLS with
    | some e => some e
    | none =>
      match env.readData2017 with
      | .error e => some e
      | .ok _ => none

theorem fetchAll_err (f : String → Except ScriptError String) :
    ∀ (l : List String) (e : ScriptError),
      firstFetchFailure f l = some e → fetchAll f l = .error e := by
  intro l
  induction l with
  | nil => intro e h; simp [firstFetchFailure] at h
  | cons u t ih =>
    intro e h
    cases hf : f u with
    | error e' =>
      rw [firstFetchFailure, hf] at h
      cases h
      rw [fetchAll, hf]
    | ok html =>
      rw [firstFetchFailure, hf] at h
      rw [fetchAll, hf, ih e h]

theorem fetchAll_ok (f : String → Except ScriptError String) :
    ∀ l : List String, firstFetchFailure f l = none →
      ∃ pages, fetchAll f l = .ok pages := by
  intro l
  induction l with
  | nil => intro _; exact ⟨[], rfl⟩
  | cons u t ih =>
    intro h
    cases hf : f u with
    | error e' =>
      rw [firstFetchFailure, hf] at h
      cases h
    | ok html =>
      rw [firstFetchFailure, hf] at h
      obtain ⟨pages, hp⟩ := ih h
      exact ⟨html :: pages, by rw [fetchAll, hf, hp]⟩

theorem fetchSeq_ok (f : String → Except ScriptError String) :
    ∀ (l acc : List String), firstFetchFailure f l = none →
      ∃ pages, fetchSeq f acc l = .ok pages := by
  intro l
  induction l with
  | nil => intro acc _; exact ⟨acc, rfl⟩
  | cons u t ih =>
    intro acc h
    cases hf : f u with
    | error e' =>
      rw [firstFetchFailure, hf] at h
      cases h
    | ok html =>
      rw [firstFetchFailure, hf] at h
      obtain ⟨pages, hp⟩ := ih (acc ++ [html]) h
      exact ⟨pages, by rw [fetchSeq, hf]; exact hp⟩

/-- C8: no retrieval, file-access or decode error is caught anywhere; the
script, modelled in the error monad, returns the first error its fallible
operations encounter, and succeeds exactly when none of them fails. -/
theorem c8_first_error_propagates :
    (∀ (env : ScriptEnv) (e : ScriptError),
      firstFailure env = some e → runScript env = .error e)
    ∧ (∀ env : ScriptEnv,
      firstFailure env = none → ∃ out, runScript env = .ok out) := by
  constructor
  · intro env e h
    unfold firstFailure at h
    cases h22 : env.fetchData2022 with
    | error e0 =>
      rw [h22] at h
      cases h
      simp [runScript, h22]
    | ok d22 =>
      rw [h22] at h
      cases hp : firstFetchFailure env.fetchPage URLS with
      | some e0 =>
        rw [hp] at h
        cases h
        simp [runScript, h22, fetchAll_err env.fetchPage URLS _ hp]
      | none =>
        rw [hp] at h
        cases h17 : env.readData2017 with
        | error e0 =>
          rw [h17] at h
          cases h
          obtain ⟨ps, hps⟩ := fetchAll_ok env.fetchPage URLS hp
          obtain ⟨qs, hqs⟩ := fetchSeq_ok env.fetchPage URLS [] hp
          simp [runScript, h22, hps, hqs, h17]
        | ok d17 =>
          rw [h17] at h
          cases h
  · intro env h
    unfold firstFailure at h
    cases h22 : env.fetchData2022 with
    | error e0 => rw [h22] at h; cases h
    | ok d22 =>
      rw [h22] at h
      cases hp : firstFetchFailure env.fetchPage URLS with
      | some e0 => rw [hp] at h; cases h
      | none =>
        rw [hp] at h
        cases h17 : env.readData2017 with
        | error e0 => rw [h17] at h; cases h
        | ok d17 =>
          obtain ⟨ps, hps⟩ := fetchAll_ok env.fetchPage URLS hp
          obtain ⟨qs, hqs⟩ := fetchSeq_ok env.fetchPage URLS [] hp
          simp only [runScript, h22, hps, hqs, h17]
          exact ⟨_, rfl⟩

/-- An environment whose very first fallible step, the current-year fetch,
fails with a retrieval error. -/
def envFetchFails : ScriptEnv :=
  { fetchData2022 :=
      .error (.retrieval "https://media.lesechos.fr/infographie/embed-tracker-parrainages/data-2022.json")
    fetchPage := fun _ => .ok ""
    readData2017 := .ok exData2017 }

/-- An environment in which every fallible step succeeds. -/
def envAllOk : ScriptEnv :=
  { fetchData2022 := .ok exData2022
    fetchPage := fun _ => .ok ""
    readData2017 := .ok exData2017 }

/-- Witness for C8: with a failing current-year fetch the script surfaces that
very error, and with an all-successful environment it completes. -/
theorem c8_first_error_propagates_witness :
    runScript envFetchFails
      = .error (.retrieval "https://media.lesechos.fr/infographie/embed-tracker-parrainages/data-2022.json")
    ∧ ∃ out, runScript envAllOk = .ok out :=
  ⟨c8_first_error_propagates.1 envFetchFails
      (.retrieval "https://media.lesechos.fr/infographie/embed-tracker-parrainages/data-2022.json")
      rfl,
   c8_first_error_propagates.2 envAllOk rfl⟩

/-- Witness for C5 at a concrete civility value: the empty-collection
percentage is the surfaced non-finite result and differs from 0. -/
theorem c5_empty_is_nan_witness :
    percentageWithCivilityJS [] "M." = none
    ∧ percentageWithCivilityJS [] "M." ≠ some 0 :=
  c5_empty_is_nan "M."
